import Mathlib

/-!
Verification of the offset-addressed patch engine of the `ai-blog` repository.

Text is modelled as `List Char`; JavaScript string indices are modelled as
`Int` (JS numbers used as indices in this code are always integral), and
`String.prototype.slice` clamping semantics are embedded explicitly in
`jsSlice`.  Each definition below embeds one function of the TypeScript
source, named after it; the source file is cited in the doc comment.
-/

set_option maxHeartbeats 1000000

/-- Clamping of a JS slice index to `[0, len]`: a negative index counts from
the end (`max (len + i) 0`), a non-negative one is capped at `len`. -/
def jsClamp (len : Nat) (i : Int) : Nat :=
  if i < 0 then (len + i).toNat else min i.toNat len

/-- `s.slice(start, stop)` of JavaScript, on `List Char`. -/
def jsSlice (s : List Char) (start stop : Int) : List Char :=
  (s.take (jsClamp s.length stop)).drop (jsClamp s.length start)

/-- One-argument `s.slice(start)` of JavaScript: slice to the end. -/
def jsSliceFrom (s : List Char) (start : Int) : List Char :=
  jsSlice s start s.length

/-- `getContextAround` of `src/lib/markdown-utils.ts`: the pair
`(markdown.slice(max(0, start - ctx), start), markdown.slice(end, min(len, end + ctx)))`. -/
def getContextAround (markdown : List Char) (startOffset endOffset contextLength : Int) :
    List Char × List Char :=
  (jsSlice markdown (max 0 (startOffset - contextLength)) startOffset,
   jsSlice markdown endOffset (min (markdown.length : Int) (endOffset + contextLength)))

/-- `replaceSection` of `src/lib/markdown-utils.ts`:
`markdown.slice(0, startOffset) + newContent + markdown.slice(endOffset)`.
No validation is performed; the function is total, as in the source. -/
def replaceSection (markdown : List Char) (startOffset endOffset : Int)
    (newContent : List Char) : List Char :=
  jsSlice markdown 0 startOffset ++ newContent ++ jsSliceFrom markdown endOffset

/-- `text.split('\n')` of JavaScript: the list of `'\n'`-separated pieces;
`[[]]` on the empty list, as in JS where `"".split` gives `[""]`. -/
def splitNl : List Char → List (List Char)
  | [] => [[]]
  | c :: rest =>
    if c = '\n' then [] :: splitNl rest
    else (c :: (splitNl rest).headI) :: (splitNl rest).tail

/-- `offsetToLine` of `src/lib/markdown-utils.ts`:
`markdown.slice(0, offset).split('\n').length`. -/
def offsetToLine (markdown : List Char) (offset : Int) : Nat :=
  (splitNl (jsSlice markdown 0 offset)).length

/-- `lineToOffset` of `src/lib/markdown-utils.ts`: sums `lines[i].length + 1`
for `i < min (lineNumber - 1) lines.length` over `lines = markdown.split('\n')`. -/
def lineToOffset (markdown : List Char) (lineNumber : Int) : Nat :=
  let lines := splitNl markdown
  (((lines.take (min (lineNumber - 1) (lines.length : Int)).toNat)).map
    (fun l => l.length + 1)).sum

/-- The backward scan of `insertImageAtOffset` in `src/lib/markdown-utils.ts`:
`while (startOfLine > 0 && markdown[startOfLine - 1] !== '\n') startOfLine--`. -/
def lineStart (markdown : List Char) : Nat → Nat
  | 0 => 0
  | j + 1 => if markdown.get? j = some '\n' then j + 1 else lineStart markdown j

/-- `insertImageAtOffset` of `src/lib/markdown-utils.ts`: clamps the offset to
`[0, len]`, scans back to the start of the containing line, and splices
`imageMarkdown` there followed by a blank line, preceded by a newline unless
the insertion lands at position 0. -/
def insertImageAtOffset (markdown : List Char) (offset : Int)
    (imageMarkdown : List Char) : List Char :=
  let insertOffset : Nat := (min offset (markdown.length : Int)).toNat
  let startOfLine := lineStart markdown insertOffset
  let before := jsSlice markdown 0 (startOfLine : Int)
  let after := jsSliceFrom markdown (startOfLine : Int)
  let insertion := imageMarkdown ++ ['\n', '\n']
  before ++ (if 0 < startOfLine then '\n' :: insertion else insertion) ++ after

/-- The whitespace class of JS `\s` and `trim()` restricted to ASCII (the only
whitespace characters the sources manipulate). -/
def isJsSpace (c : Char) : Bool :=
  c = ' ' || c = '\t' || c = '\n' || c = '\r' || c = '\x0b' || c = '\x0c'

/-- `content.trim()` of JavaScript. -/
def jsTrim (s : List Char) : List Char :=
  ((s.dropWhile isJsSpace).reverse.dropWhile isJsSpace).reverse

/-- Counts maximal runs of non-whitespace characters; the `Bool` records
whether the previous character belonged to a run. -/
def countRuns : Bool → List Char → Nat
  | _, [] => 0
  | inWord, c :: rest =>
    if isJsSpace c then countRuns false rest
    else (if inWord then 0 else 1) + countRuns true rest

/-- `content.trim().split(/\s+/).length` of `calculateMetadata` in
`src/lib/db.ts`: `1` on a trimmed-empty string (JS `"".split` gives `[""]`),
otherwise the number of whitespace-separated words. -/
def jsWordCount (s : List Char) : Nat :=
  let t := jsTrim s
  if t.isEmpty then 1 else countRuns false t

/-- Lazy scan for `.*?\]\(` of the image regex: finds the first `']'`
immediately followed by `'('`, failing on a newline (`.` does not match
`'\n'`) or at the end; returns the rest of the input after the `"]("`. -/
def scanImgAlt : List Char → Option (List Char)
  | [] => none
  | '\n' :: _ => none
  | ']' :: '(' :: rest => some rest
  | _ :: rest => scanImgAlt rest

/-- Lazy scan for `.*?\)` of the image regex: finds the first `')'`, failing
on a newline or at the end; returns the rest of the input after it. -/
def scanImgParen : List Char → Option (List Char)
  | [] => none
  | '\n' :: _ => none
  | ')' :: rest => some rest
  | _ :: rest => scanImgParen rest

/-- Count of the global, non-overlapping matches of `/!\[.*?\]\(.*?\)/g` in
`calculateMetadata` of `src/lib/db.ts`: a match attempt starts at each `"!["`
from the left; on failure the start position advances by one character, on
success the scan resumes after the match.  The `fuel` argument only bounds
the recursion depth (every recursive call consumes at least one character of
the input, so a fuel of `s.length` is always sufficient). -/
def countImagesAux : Nat → List Char → Nat
  | 0, _ => 0
  | fuel + 1, s =>
    match s with
    | [] => 0
    | '!' :: '[' :: rest =>
      (match scanImgAlt rest with
       | some r2 =>
         (match scanImgParen r2 with
          | some r3 => 1 + countImagesAux fuel r3
          | none => countImagesAux fuel ('[' :: rest))
       | none => countImagesAux fuel ('[' :: rest))
    | _ :: rest => countImagesAux fuel rest

/-- `(content.match(/!\[.*?\]\(.*?\)/g) || []).length` of `src/lib/db.ts`. -/
def countImages (s : List Char) : Nat :=
  countImagesAux s.length s

/-- Derived metadata of a revision, `calculateMetadata` in `src/lib/db.ts`. -/
structure Metadata where
  wordCount : Nat
  characterCount : Nat
  imageCount : Nat
deriving DecidableEq, Repr

/-- `calculateMetadata` of `src/lib/db.ts`. -/
def calculateMetadata (content : List Char) : Metadata :=
  { wordCount := jsWordCount content
    characterCount := content.length
    imageCount := countImages content }

/-- The `type` discriminant of `FeedbackItem` in `src/lib/types.ts`. -/
inductive FType
  | text
  | image
deriving DecidableEq, Repr

/-- The `status` field of `FeedbackItem` in `src/lib/types.ts`. -/
inductive FStatus
  | pending
  | processing
  | completed
deriving DecidableEq, Repr

/-- `FeedbackItem` of `src/lib/types.ts`, restricted to the fields the patch
engine reads (the client POSTs exactly `id, type, startOffset, endOffset,
selectedText, comment` to the regenerate route; `status` is kept because
`handleSubmitFeedback` sets it). -/
structure FeedbackItem where
  id : List Char
  type : FType
  startOffset : Option Int
  endOffset : Option Int
  selectedText : Option (List Char)
  comment : List Char
  status : FStatus
deriving DecidableEq, Repr

/-- The server-sent events emitted by `POST` of
`src/app/api/regenerate/route.ts`. -/
inductive SSEvent
  | start (itemId : List Char)
  | content (itemId : List Char) (text : List Char)
  | complete (itemId : List Char) (regeneratedText : List Char)
  | done (newMarkdown : List Char)
  | error (message : List Char)
deriving DecidableEq, Repr

/-- Outcome of one call to the external rewrite collaborator (`streamText` in
the route): either the stream yields `chunks` and ends normally, or it throws
with `message` after having yielded `sent` chunks. -/
inductive RewriteResult
  | ok (chunks : List (List Char))
  | fail (message : List Char) (sent : List (List Char))

/-- The external rewrite collaborator, abstracted as a function of everything
the route hands to `streamText`: the feedback item (whose `selectedText` and
`comment` enter the prompt via `buildRegenerationPrompt`) and the context
pair computed by `getContextAround`. -/
def Rewrite : Type :=
  FeedbackItem → List Char × List Char → RewriteResult

/-- JS truthiness test `!x` on an optional numeric field: falsy when the
field is `undefined` or `0`. -/
def jsFalsyOffset : Option Int → Bool
  | none => true
  | some v => v = 0

/-- The guard `item.type !== 'text' || !item.startOffset || !item.endOffset`
at the top of the per-item loop in `src/app/api/regenerate/route.ts`
(lines 33-36): a skipped item is silently passed over by `continue`. -/
def skipItem (item : FeedbackItem) : Bool :=
  decide (item.type ≠ FType.text) || jsFalsyOffset item.startOffset
    || jsFalsyOffset item.endOffset

/-- The sequential per-item loop of `POST` in
`src/app/api/regenerate/route.ts`: for each non-skipped item it emits a
`start` event, one `content` event per streamed chunk, accumulates the
chunks into `regeneratedText`, splices it into the evolving buffer with
`replaceSection` at the item's original offsets, and emits a `complete`
event; if the stream throws, the exception aborts the loop and the
accumulated events are followed by an `error` outcome.  Returns the events
produced by the loop body and either the final markdown or the error
message. -/
def runItems (rw : Rewrite) (md : List Char) :
    List FeedbackItem → List SSEvent × Except (List Char) (List Char)
  | [] => ([], Except.ok md)
  | item :: rest =>
    if skipItem item then runItems rw md rest
    else
      let s := item.startOffset.getD 0
      let e := item.endOffset.getD 0
      match rw item (getContextAround md s e 200) with
      | RewriteResult.ok chunks =>
        let regeneratedText := chunks.flatten
        let md2 := replaceSection md s e regeneratedText
        let r := runItems rw md2 rest
        (SSEvent.start item.id ::
          (chunks.map (SSEvent.content item.id) ++
            SSEvent.complete item.id regeneratedText :: r.1), r.2)
      | RewriteResult.fail msg sent =>
        (SSEvent.start item.id :: sent.map (SSEvent.content item.id),
         Except.error msg)

/-- The full event stream of one `POST` to the regenerate route: the loop's
events followed by a final `done` event carrying the final markdown, or by an
`error` event when the loop threw (the `catch` block of the route). -/
def route (rw : Rewrite) (md : List Char) (items : List FeedbackItem) :
    List SSEvent :=
  match runItems rw md items with
  | (evs, Except.ok finalMd) => evs ++ [SSEvent.done finalMd]
  | (evs, Except.error msg) => evs ++ [SSEvent.error msg]

/-- The item ids carried by the `start` events of a stream, in emission
order. -/
def startedIds (evs : List SSEvent) : List (List Char) :=
  evs.filterMap fun e =>
    match e with
    | SSEvent.start i => some i
    | _ => none

/-- One step of scanning a stream for its `done` payload. -/
def lastDoneStep (acc : Option (List Char)) (e : SSEvent) : Option (List Char) :=
  match e with
  | SSEvent.done m => some m
  | _ => acc

/-- The payload of the last `done` event of a stream, if any. -/
def lastDone (evs : List SSEvent) : Option (List Char) :=
  evs.foldl lastDoneStep none

/-- The authoritative markdown the caller ends up with after consuming the
stream: `useRegenerate` (src/unnamed/part_001) invokes `onComplete` only on a
`done` event, and the editor page updates `markdown` from a delivered
candidate only then; with no `done` event the pre-batch text stands. -/
def clientFinalMarkdown (base : List Char) (evs : List SSEvent) : List Char :=
  (lastDone evs).getD base

/-- The data of a selection captured by `PreviewPane`
(`src/components/editor/PreviewPane.tsx`); the popover position is
presentation-only and omitted. -/
structure SelectionS where
  text : List Char
  startOffset : Int
  endOffset : Int

/-- `handleSubmitFeedback` of `src/components/editor/PreviewPane.tsx`
(lines 168-190): builds a pending text `FeedbackItem` from the current
selection and the comment; `genId` stands for the
`feedback-${Date.now()}-${Math.random()}` identifier. -/
def handleSubmitFeedback (genId : List Char) (sel : SelectionS)
    (comment : List Char) : FeedbackItem :=
  { id := genId
    type := FType.text
    startOffset := some sel.startOffset
    endOffset := some sel.endOffset
    selectedText := some sel.text
    comment := comment
    status := FStatus.pending }

/-- `onAddFeedback` of the editor page
(`src/app/editor/[postId]/page.tsx`, also src/unnamed/part_000 line 253):
`setFeedbackItems([...feedbackItems, item])` — an unconditional append. -/
def addFeedback (items : List FeedbackItem) (item : FeedbackItem) :
    List FeedbackItem :=
  items ++ [item]

/-- Modelled from the spec: the half-open interval overlap test of §4.2
(`[s1,e1)` intersects `[s2,e2)` iff `s1 < e2 ∧ s2 < e1`), which the spec
attributes to `add(request)`; no such test exists in the source.  Used only
to state the overlap claim. -/
def spansOverlap (a b : FeedbackItem) : Bool :=
  match a.startOffset, a.endOffset, b.startOffset, b.endOffset with
  | some s1, some e1, some s2, some e2 => s1 < e2 && s2 < e1
  | _, _, _, _ => false

/-- `PostVersion` of `src/lib/types.ts`: one immutable-by-intent revision
record. -/
structure PostVersion where
  id : List Char
  postId : List Char
  versionNumber : Nat
  content : List Char
  createdAt : Nat
  metadata : Metadata
deriving DecidableEq, Repr

/-- `updateVersion` of `src/lib/db.ts` (lines 101-104): `db.put('versions', v)`
— IndexedDB `put` replaces the record whose key equals `v.id` when present,
otherwise inserts.  The store is modelled as a list of records with distinct
ids. -/
def putVersion (store : List PostVersion) (v : PostVersion) :
    List PostVersion :=
  if store.any (fun w => w.id == v.id) then
    store.map (fun w => if w.id == v.id then v else w)
  else store ++ [v]

/-- `createVersion` of `src/lib/db.ts`: `db.add('versions', v)` — IndexedDB
`add` fails when the key already exists. -/
def addVersion (store : List PostVersion) (v : PostVersion) :
    Option (List PostVersion) :=
  if store.any (fun w => w.id == v.id) then none
  else some (store ++ [v])

/-- The record written by the debounced auto-save effect of
`src/app/editor/[postId]/page.tsx` (lines 74-100):
`{ ...version, content: markdown, metadata: calculateMetadata(markdown) }` —
same `id` and `versionNumber` as the version the document currently points
to. -/
def autoSaveVersion (version : PostVersion) (markdown : List Char) :
    PostVersion :=
  { version with content := markdown, metadata := calculateMetadata markdown }

/-- The persistence step of the auto-save effect: `updateVersion(updated)`.
(The effect fires only when `markdown ≠ version.content`; the surrounding
`updatePost` call touches only the post's `updatedAt`.) -/
def autoSaveStep (store : List PostVersion) (version : PostVersion)
    (markdown : List Char) : List PostVersion :=
  putVersion store (autoSaveVersion version markdown)

/-- `BlogPost` of `src/lib/types.ts`. -/
structure BlogPost where
  id : List Char
  title : List Char
  createdAt : Nat
  updatedAt : Nat
  currentVersionId : List Char
deriving DecidableEq, Repr

/-- The state of `EditorPage` in `src/app/editor/[postId]/page.tsx` relevant
to the staged transaction: the post (holding the current-revision pointer),
the revision store, the authoritative markdown, and the pending-candidate
fields set by `handleRegenerateAll`. -/
structure EditorPageState where
  post : BlogPost
  versions : List PostVersion
  markdown : List Char
  pendingMarkdown : Option (List Char)
  preRegenerationMarkdown : Option (List Char)
  feedbackItems : List FeedbackItem
deriving DecidableEq, Repr

/-- `handleDenyChanges` of `src/app/editor/[postId]/page.tsx` (lines 189-194):
clears `pendingMarkdown` and `preRegenerationMarkdown`; nothing else is
touched and no store call is made. -/
def handleDenyChanges (s : EditorPageState) : EditorPageState :=
  { s with pendingMarkdown := none, preRegenerationMarkdown := none }

/-- Modelled from the spec (§4.1): `replaceSpan` requires
`0 ≤ start ≤ end ≤ len(text)` and fails with `RangeError` (here `none`)
otherwise.  Defined only to compare the spec's contract with the source's
`replaceSection`, which performs no such check. -/
def replaceSpanSpec (text : List Char) (start stop : Int) (repl : List Char) :
    Option (List Char) :=
  if 0 ≤ start ∧ start ≤ stop ∧ stop ≤ (text.length : Int) then
    some (text.take start.toNat ++ repl ++ text.drop stop.toNat)
  else none

/-- Concrete rewrite collaborator for the C1 scenario: the request with id
`"1"` is answered with `"XX"`, any other with `"YYYYYY"`. -/
def c1Rewrite : Rewrite := fun item _ =>
  if item.id = ("1".toList) then RewriteResult.ok [("XX".toList)]
  else RewriteResult.ok [("YYYYYY".toList)]

/-- The C1 scenario batch: replace `[0,4)` (`"AAAA"`) and `[10,14)`
(`"CCCC"`) of `"AAAA BBBB CCCC"`. -/
def c1Items : List FeedbackItem :=
  [{ id := ("1".toList), type := FType.text, startOffset := some 0,
     endOffset := some 4, selectedText := some ("AAAA".toList),
     comment := ("shorten".toList), status := FStatus.pending },
   { id := ("2".toList), type := FType.text, startOffset := some 10,
     endOffset := some 14, selectedText := some ("CCCC".toList),
     comment := ("expand".toList), status := FStatus.pending }]

/-- The C1 scenario shifted one character to the right (base
`"ZAAAA BBBB CCCC"`, spans `[1,5)` and `[11,15)`), so that no offset is `0`
and nothing is skipped by the falsy-offset guard. -/
def c1ItemsShifted : List FeedbackItem :=
  [{ id := ("1".toList), type := FType.text, startOffset := some 1,
     endOffset := some 5, selectedText := some ("AAAA".toList),
     comment := ("shorten".toList), status := FStatus.pending },
   { id := ("2".toList), type := FType.text, startOffset := some 11,
     endOffset := some 15, selectedText := some ("CCCC".toList),
     comment := ("expand".toList), status := FStatus.pending }]

/-- Concrete failing collaborator for C2: the stream throws immediately. -/
def c2Rewrite : Rewrite := fun _ _ => RewriteResult.fail ("boom".toList) []

/-- A well-formed text request for C2. -/
def c2Item : FeedbackItem :=
  { id := ("f".toList), type := FType.text, startOffset := some 2,
    endOffset := some 5, selectedText := some ("llo".toList),
    comment := ("fix".toList), status := FStatus.pending }

/-- Queued request `[5,10)` of the C3 scenario, built through
`handleSubmitFeedback` as the source does. -/
def c3Req1 : FeedbackItem :=
  handleSubmitFeedback ("f1".toList) ⟨("56789".toList), 5, 10⟩ ("tighten".toList)

/-- Late request `[8,12)` of the C3 scenario, overlapping `c3Req1`. -/
def c3Req2 : FeedbackItem :=
  handleSubmitFeedback ("f2".toList) ⟨("89AB".toList), 8, 12⟩ ("expand".toList)

/-- Request with `startOffset` 5 (id `"1"`), for the C4 ordering scenario. -/
def c4ItemA : FeedbackItem :=
  { id := ("1".toList), type := FType.text, startOffset := some 5,
    endOffset := some 8, selectedText := some ("567".toList),
    comment := ("a".toList), status := FStatus.pending }

/-- Request with `startOffset` 10 (id `"2"`), for the C4 ordering scenario. -/
def c4ItemB : FeedbackItem :=
  { id := ("2".toList), type := FType.text, startOffset := some 10,
    endOffset := some 14, selectedText := some ("ABCD".toList),
    comment := ("b".toList), status := FStatus.pending }

/-- Collaborator answering every request with `"new"`, for C4. -/
def c4Rewrite : Rewrite := fun _ _ => RewriteResult.ok [("new".toList)]

/-- A stored revision record (id `"v1"`, version number 3), for C5. -/
def c5V0 : PostVersion :=
  { id := ("v1".toList), postId := ("p1".toList), versionNumber := 3,
    content := ("old".toList), createdAt := 0,
    metadata := calculateMetadata ("old".toList) }

/-- A revision record for the C9 editor state. -/
def c9Version : PostVersion :=
  { id := ("v1".toList), postId := ("p".toList), versionNumber := 1,
    content := ("base".toList), createdAt := 0,
    metadata := calculateMetadata ("base".toList) }

/-- An editor state holding a completed pending transaction (a delivered
candidate `"cand"` over authoritative markdown `"base"`), for C9. -/
def c9State : EditorPageState :=
  { post := { id := ("p".toList), title := ("t".toList), createdAt := 0,
              updatedAt := 0, currentVersionId := ("v1".toList) }
    versions := [c9Version]
    markdown := ("base".toList)
    pendingMarkdown := some ("cand".toList)
    preRegenerationMarkdown := some ("base".toList)
    feedbackItems := [] }

/-- An item skipped by the route's guard (its `startOffset` is `0`), for
C10. -/
def c10Item : FeedbackItem :=
  { id := ("z".toList), type := FType.text, startOffset := some 0,
    endOffset := some 4, selectedText := some ("AAAA".toList),
    comment := ("improve".toList), status := FStatus.pending }

/-- Collaborator answering every request with `"q"`, for C10. -/
def c10Rewrite : Rewrite := fun _ _ => RewriteResult.ok [("q".toList)]

theorem jsClamp_natCast (len n : Nat) : jsClamp len (n : Int) = min n len := by
  rw [jsClamp, if_neg (by omega)]
  simp

theorem jsClamp_zero (len : Nat) : jsClamp len 0 = 0 := by
  simp [jsClamp]

theorem jsSlice_zero_natCast (s : List Char) (n : Nat) :
    jsSlice s 0 (n : Int) = s.take (min n s.length) := by
  rw [jsSlice, jsClamp_natCast, jsClamp_zero, List.drop_zero]

theorem jsSliceFrom_natCast (s : List Char) (n : Nat) :
    jsSliceFrom s (n : Int) = s.drop (min n s.length) := by
  rw [jsSliceFrom, jsSlice, jsClamp_natCast, jsClamp_natCast]
  simp

/-- C1: the spec's scenario — base `"AAAA BBBB CCCC"`, replace `[0,4)` with
`"XX"` and `[10,14)` with `"YYYYYY"` — is claimed to yield
`"XX BBBB YYYYYY"`.  Evaluating the route's reconciliation loop shows it
does not: the `[0,4)` request is silently skipped (the guard
`!item.startOffset` treats offset `0` as missing), so the result is
`"AAAA BBBB YYYYYY"`; and on the same scenario shifted right by one
character (base `"ZAAAA BBBB CCCC"`, spans `[1,5)` and `[11,15)`), where
nothing is skipped, the result is `"ZXX BBBB CCYYYYYY"` — the second
request's original offsets are applied to a buffer the first splice already
shortened by two characters, leaving a stale `"CC"` behind — instead of the
intended `"ZXX BBBB YYYYYY"`. -/
theorem C1_scenario_code_result :
    lastDone (route c1Rewrite ("AAAA BBBB CCCC".toList) c1Items)
        = some ("AAAA BBBB YYYYYY".toList)
      ∧ ("AAAA BBBB YYYYYY".toList) ≠ ("XX BBBB YYYYYY".toList)
      ∧ lastDone (route c1Rewrite ("ZAAAA BBBB CCCC".toList) c1ItemsShifted)
        = some ("ZXX BBBB CCYYYYYY".toList)
      ∧ ("ZXX BBBB CCYYYYYY".toList) ≠ ("ZXX BBBB YYYYYY".toList) := by
  decide

/-- C3 counterexample: `add([5,10))` followed by `add([8,12))` does not raise
any `OverlapError` — the queue afterwards is `[req1, req2]`, not the claimed
`[req1]`, even though the two half-open spans overlap. -/
theorem C3_counterexample :
    addFeedback (addFeedback [] c3Req1) c3Req2 = [c3Req1, c3Req2]
      ∧ spansOverlap c3Req1 c3Req2 = true
      ∧ addFeedback (addFeedback [] c3Req1) c3Req2 ≠ [c3Req1] := by
  decide

/-- C3 (amended): adding a feedback request performs no overlap check at
all — `onAddFeedback` appends unconditionally — so a request overlapping an
already-queued one is accepted and both overlapping requests are present in
the queue afterwards. -/
theorem C3_overlapping_add_appends (q : List FeedbackItem)
    (r r' : FeedbackItem) (h1 : r' ∈ q) (_h2 : spansOverlap r' r = true) :
    r' ∈ addFeedback q r ∧ r ∈ addFeedback q r
      ∧ (addFeedback q r).length = q.length + 1 := by
  refine ⟨?_, ?_, ?_⟩
  · exact List.mem_append_left _ h1
  · exact List.mem_append_right _ (List.mem_singleton.mpr rfl)
  · simp [addFeedback]

/-- Witness for C3: the amended statement at the concrete scenario queue. -/
theorem C3_witness :
    c3Req1 ∈ addFeedback [c3Req1] c3Req2 ∧ c3Req2 ∈ addFeedback [c3Req1] c3Req2
      ∧ (addFeedback [c3Req1] c3Req2).length = [c3Req1].length + 1 :=
  C3_overlapping_add_appends [c3Req1] c3Req2 c3Req1 (by decide) (by decide)

/-- C5 counterexample: the debounced auto-save persists
`{ ...version, content: markdown, metadata: ... }` through `db.put`, which
overwrites the stored revision in place — afterwards the store still holds a
single record with the *same* id `"v1"` and the *same* version number 3, but
with the new content; no new revision record is created and the old content
is gone. -/
theorem C5_counterexample :
    autoSaveStep [c5V0] c5V0 ("new text".toList)
        = [({ c5V0 with
                content := ("new text".toList)
                metadata := calculateMetadata ("new text".toList) } : PostVersion)]
      ∧ (autoSaveStep [c5V0] c5V0 ("new text".toList)).length = 1
      ∧ (autoSaveStep [c5V0] c5V0 ("new text".toList)).map PostVersion.id
          = [c5V0.id]
      ∧ (autoSaveStep [c5V0] c5V0 ("new text".toList)).map
          PostVersion.versionNumber = [3]
      ∧ c5V0.content ≠ ("new text".toList) := by
  decide

/-- C5 (amended): the auto-save checkpoint mutates the current Revision in
place: for any store containing a record with the version's id, the saved
record keeps the same id and the same (un-incremented) version number with
the content replaced, the store keeps its size, and no new record appears;
a new Revision (fresh id, versionNumber + 1) is created only by the
confirmed-regeneration path, not by auto-save. -/
theorem C5_autosave_overwrites_in_place (store : List PostVersion)
    (v : PostVersion) (md : List Char)
    (h : store.any (fun w => w.id == v.id) = true) :
    autoSaveStep store v md
        = store.map (fun w => if w.id == v.id then autoSaveVersion v md else w)
      ∧ (autoSaveStep store v md).length = store.length
      ∧ (autoSaveVersion v md).id = v.id
      ∧ (autoSaveVersion v md).versionNumber = v.versionNumber
      ∧ (autoSaveVersion v md).content = md := by
  have h2 : ∃ x ∈ store, x.id = v.id := by simpa using h
  refine ⟨?_, ?_, rfl, rfl, rfl⟩
  · simp [autoSaveStep, putVersion, autoSaveVersion, h2]
  · simp [autoSaveStep, putVersion, autoSaveVersion, h2]

/-- Witness for C5: the amended statement at the concrete one-record store. -/
theorem C5_witness :
    autoSaveStep [c5V0] c5V0 ("x".toList)
        = [c5V0].map (fun w =>
            if w.id == c5V0.id then autoSaveVersion c5V0 ("x".toList) else w)
      ∧ (autoSaveStep [c5V0] c5V0 ("x".toList)).length = [c5V0].length
      ∧ (autoSaveVersion c5V0 ("x".toList)).id = c5V0.id
      ∧ (autoSaveVersion c5V0 ("x".toList)).versionNumber = c5V0.versionNumber
      ∧ (autoSaveVersion c5V0 ("x".toList)).content = ("x".toList) :=
  C5_autosave_overwrites_in_place [c5V0] c5V0 ("x".toList) (by decide)

/-- C6 counterexample: on an inverted range (`start = 2 > 1 = end`) the
spec's `replaceSpan` contract demands a `RangeError`, but `replaceSection`
performs no validation and returns `"abXbc"` (JS `slice` clamping). -/
theorem C6_counterexample :
    replaceSpanSpec ("abc".toList) 2 1 ("X".toList) = none
      ∧ replaceSection ("abc".toList) 2 1 ("X".toList) = ("abXbc".toList) := by
  decide

/-- C6 (amended): `replaceSection` never fails; when the precondition
`0 ≤ start ≤ end ≤ len(text)` holds its result is the concatenation
`text[0:start] + replacement + text[end:]`, and outside the precondition it
still returns a string under JS `slice` clamping instead of raising
`RangeError`. -/
theorem C6_replaceSection_valid (md newContent : List Char) (s e : Nat)
    (hse : s ≤ e) (hel : e ≤ md.length) :
    replaceSection md (s : Int) (e : Int) newContent
      = md.take s ++ newContent ++ md.drop e := by
  rw [replaceSection, jsSlice_zero_natCast, jsSliceFrom_natCast,
    Nat.min_eq_left (le_trans hse hel), Nat.min_eq_left hel]

/-- Witness for C6: the amended statement at a concrete in-range call. -/
theorem C6_witness :
    replaceSection ("abcde".toList) ((1 : Nat) : Int) ((3 : Nat) : Int)
        ("Z".toList)
      = ("abcde".toList).take 1 ++ ("Z".toList) ++ ("abcde".toList).drop 3 :=
  C6_replaceSection_valid ("abcde".toList) ("Z".toList) 1 3 (by decide)
    (by decide)

/-- C9: denying a delivered candidate (`handleDenyChanges` after the batch
completed) only clears the pending fields: the post — in particular its
current-revision pointer — the revision store, and the authoritative
markdown are exactly those of the pre-transaction state, and no revision
record is created or modified. -/
theorem C9_deny_changes_frame (s : EditorPageState) (c : List Char)
    (_h : s.pendingMarkdown = some c) :
    (handleDenyChanges s).post = s.post
      ∧ (handleDenyChanges s).post.currentVersionId = s.post.currentVersionId
      ∧ (handleDenyChanges s).versions = s.versions
      ∧ (handleDenyChanges s).markdown = s.markdown
      ∧ (handleDenyChanges s).pendingMarkdown = none := by
  simp [handleDenyChanges]

theorem splitNl_ne_nil (md : List Char) : splitNl md ≠ [] := by
  cases md with
  | nil => simp [splitNl]
  | cons c rest =>
    rw [splitNl]
    by_cases hc : c = '\n' <;> simp [hc]

theorem splitNl_length (md : List Char) :
    (splitNl md).length = md.count '\n' + 1 := by
  induction md with
  | nil => rfl
  | cons c rest ih =>
    rw [splitNl]
    by_cases hc : c = '\n'
    · subst hc
      have hcnt : ('\n' :: rest).count '\n' = rest.count '\n' + 1 := by simp
      rw [if_pos rfl, hcnt, List.length_cons, ih]
    · have hcnt : (c :: rest).count '\n' = rest.count '\n' := by
        simp [List.count_cons, hc]
      rcases List.exists_cons_of_ne_nil (splitNl_ne_nil rest) with ⟨l, ls, hrest⟩
      rw [if_neg hc, hrest, hcnt]
      rw [hrest] at ih
      simp only [List.headI, List.tail_cons, List.length_cons] at *
      omega

theorem getLast?_cons_of_ne_nil {α : Type} (a : α) (l : List α) (h : l ≠ []) :
    (a :: l).getLast? = l.getLast? := by
  cases l with
  | nil => exact absurd rfl h
  | cons b t => simp [List.getLast?_cons_cons]

theorem count_nl_pos_of_getLast? (l : List Char)
    (h : l.getLast? = some '\n') : 1 ≤ l.count '\n' := by
  have hm : '\n' ∈ l := by
    induction l with
    | nil => simp [List.getLast?] at h
    | cons a t ih =>
      cases t with
      | nil =>
        simp [List.getLast?] at h
        simp [h]
      | cons b t2 =>
        rw [List.getLast?_cons_cons] at h
        exact List.mem_cons_of_mem _ (ih h)
  exact List.count_pos_iff.mpr hm

/-- The key invariant behind the round-trip: when `o` marks the start of a
line (`md.take o` is empty or ends in a newline), the lengths-plus-one of
the first `count` lines of `splitNl md` sum back to `o`, where `count` is
the number of newlines in `md.take o`. -/
theorem sum_splitNl_take (md : List Char) :
    ∀ (o : Nat), o ≤ md.length →
      (o = 0 ∨ (md.take o).getLast? = some '\n') →
      (((splitNl md).take ((md.take o).count '\n')).map
        (fun l => l.length + 1)).sum = o := by
  induction md with
  | nil =>
    intro o ho _
    have h0 : o = 0 := Nat.le_zero.mp ho
    subst h0; rfl
  | cons c rest ih =>
    intro o ho hlast
    cases o with
    | zero => rfl
    | succ o' =>
      have ho' : o' ≤ rest.length := by simpa using ho
      rw [List.take_succ_cons] at hlast ⊢
      by_cases hc : c = '\n'
      · subst hc
        rw [splitNl, if_pos rfl]
        have hcnt : ('\n' :: rest.take o').count '\n'
            = (rest.take o').count '\n' + 1 := by simp
        rw [hcnt, List.take_succ_cons]
        simp only [List.map_cons, List.sum_cons, List.length_nil]
        have hl' : o' = 0 ∨ (rest.take o').getLast? = some '\n' := by
          rcases Nat.eq_zero_or_pos o' with h0 | hpos
          · exact Or.inl h0
          · right
            have hne : rest.take o' ≠ [] := by
              have hlen : 0 < (rest.take o').length := by
                rw [List.length_take]; omega
              exact List.ne_nil_of_length_pos hlen
            rcases hlast with h0 | hl
            · omega
            · rwa [getLast?_cons_of_ne_nil _ _ hne] at hl
        have hs := ih o' ho' hl'
        rw [hs]
        omega
      · have ho'pos : 0 < o' := by
          rcases hlast with h0 | hl
          · omega
          · by_contra hn
            have h0 : o' = 0 := by omega
            subst h0
            rw [List.take_zero] at hl
            simp [List.getLast?] at hl
            exact hc hl
        have hne : rest.take o' ≠ [] := by
          have hlen : 0 < (rest.take o').length := by
            rw [List.length_take]; omega
          exact List.ne_nil_of_length_pos hlen
        have hl : (rest.take o').getLast? = some '\n' := by
          rcases hlast with h0 | hl
          · omega
          · rwa [getLast?_cons_of_ne_nil _ _ hne] at hl
        have hkpos : 1 ≤ (rest.take o').count '\n' :=
          count_nl_pos_of_getLast? _ hl
        rcases List.exists_cons_of_ne_nil (splitNl_ne_nil rest) with ⟨l, ls, hrest⟩
        rw [splitNl, if_neg hc, hrest]
        have hcnt : (c :: rest.take o').count '\n'
            = (rest.take o').count '\n' := by
          simp [List.count_cons, hc]
        rw [hcnt]
        simp only [List.headI, List.tail_cons]
        obtain ⟨k2, hk⟩ : ∃ k2, (rest.take o').count '\n' = k2 + 1 :=
          ⟨(rest.take o').count '\n' - 1, by omega⟩
        rw [hk, List.take_succ_cons]
        simp only [List.map_cons, List.sum_cons, List.length_cons]
        have hih := ih o' ho' (Or.inr hl)
        rw [hrest, hk, List.take_succ_cons] at hih
        simp only [List.map_cons, List.sum_cons] at hih
        omega

/-- C7: `offsetToLine` and `lineToOffset` round-trip — for every text and
every offset `o` that starts a line (`o = 0` or the character at `o - 1` is
a newline, `o ≤ len`), `lineToOffset text (offsetToLine text o) = o`. -/
theorem C7_offsetToLine_lineToOffset_roundtrip (md : List Char) (o : Nat)
    (hle : o ≤ md.length)
    (hstart : o = 0 ∨ md.get? (o - 1) = some '\n') :
    lineToOffset md ((offsetToLine md (o : Int) : Nat) : Int) = o := by
  have hslice : jsSlice md 0 (o : Int) = md.take o := by
    rw [jsSlice_zero_natCast, Nat.min_eq_left hle]
  have hOTL : offsetToLine md (o : Int) = (md.take o).count '\n' + 1 := by
    rw [offsetToLine, hslice, splitNl_length]
  have hlast : o = 0 ∨ (md.take o).getLast? = some '\n' := by
    rcases hstart with h0 | hn
    · exact Or.inl h0
    · rcases Nat.eq_zero_or_pos o with h0 | hpos
      · exact Or.inl h0
      · right
        obtain ⟨o', rfl⟩ : ∃ o', o = o' + 1 := ⟨o - 1, by omega⟩
        rw [List.getLast?_eq_getElem?]
        have hlen : (md.take (o' + 1)).length = o' + 1 := by
          rw [List.length_take]; omega
        rw [hlen]
        simp only [Nat.add_sub_cancel]
        rw [List.getElem?_take_of_lt (by omega)]
        simpa [List.get?_eq_getElem?] using hn
  have hcle : (md.take o).count '\n' + 1 ≤ (splitNl md).length := by
    rw [splitNl_length]
    have hsub : (md.take o).count '\n' ≤ md.count '\n' :=
      (List.take_sublist o md).count_le '\n'
    omega
  rw [hOTL, lineToOffset]
  have hbound : (min (((((md.take o).count '\n' + 1 : Nat) : Int)) - 1)
      ((splitNl md).length : Int)).toNat = (md.take o).count '\n' := by
    have hcast : ((((md.take o).count '\n' + 1 : Nat) : Int)) - 1
        = (((md.take o).count '\n' : Nat) : Int) := by push_cast; ring
    rw [hcast, ← Nat.cast_min, Int.toNat_natCast]
    omega
  rw [hbound]
  exact sum_splitNl_take md o hle hlast

/-- Witness for C7: the round-trip at `"ab\ncd"`, offset `3` (the start of
the second line). -/
theorem C7_witness :
    lineToOffset ("ab\ncd".toList)
        ((offsetToLine ("ab\ncd".toList) ((3 : Nat) : Int) : Nat) : Int) = 3 :=
  C7_offsetToLine_lineToOffset_roundtrip ("ab\ncd".toList) 3 (by decide)
    (Or.inr (by decide))

theorem lineStart_le (md : List Char) (i : Nat) : lineStart md i ≤ i := by
  induction i with
  | zero => simp [lineStart]
  | succ j ih =>
    rw [lineStart]
    by_cases hj : md.get? j = some '\n'
    · rw [if_pos hj]
    · rw [if_neg hj]
      omega

theorem lineStart_start (md : List Char) (i : Nat) :
    lineStart md i = 0 ∨ md.get? (lineStart md i - 1) = some '\n' := by
  induction i with
  | zero => exact Or.inl rfl
  | succ j ih =>
    rw [lineStart]
    by_cases hj : md.get? j = some '\n'
    · right
      rw [if_pos hj]
      simpa using hj
    · rw [if_neg hj]
      exact ih

theorem lineStart_no_nl (md : List Char) (i : Nat) :
    ∀ j, lineStart md i ≤ j → j < i → md.get? j ≠ some '\n' := by
  induction i with
  | zero => intro j _ hj; omega
  | succ k ih =>
    intro j h1 h2
    by_cases hk : md.get? k = some '\n'
    · rw [lineStart, if_pos hk] at h1
      omega
    · rw [lineStart, if_neg hk] at h1
      rcases Nat.lt_succ_iff_lt_or_eq.mp h2 with h | h
      · exact ih j h1 h
      · subst h; exact hk

/-- C8: asset insertion is line-anchored — for every markdown, offset and
image block, `insertImageAtOffset` splices the block at the start of the
line containing the (clamped) offset, preceded by a newline unless that
start is position 0 and followed by a blank line; the anchor is a genuine
line start (position 0 or just after a newline, with no newline between it
and the clamped offset).  In particular, inserting into
`"Hello world\nGoodbye"` at offset 6 places the block as its own paragraph
before the whole text. -/
theorem C8_insertImageAtOffset_line_anchored :
    (∀ (md img : List Char) (offset : Int),
      insertImageAtOffset md offset img
          = md.take (lineStart md (min offset (md.length : Int)).toNat)
            ++ (if 0 < lineStart md (min offset (md.length : Int)).toNat
                then ['\n'] else [])
            ++ img ++ ['\n', '\n']
            ++ md.drop (lineStart md (min offset (md.length : Int)).toNat)
        ∧ (lineStart md (min offset (md.length : Int)).toNat = 0
            ∨ md.get? (lineStart md (min offset (md.length : Int)).toNat - 1)
                = some '\n')
        ∧ ∀ j, lineStart md (min offset (md.length : Int)).toNat ≤ j →
            j < (min offset (md.length : Int)).toNat →
            md.get? j ≠ some '\n')
    ∧ insertImageAtOffset ("Hello world\nGoodbye".toList) 6
        ("![alt](url)".toList)
      = ("![alt](url)\n\nHello world\nGoodbye".toList) := by
  constructor
  · intro md img offset
    refine ⟨?_, lineStart_start md _, lineStart_no_nl md _⟩
    have hio : (min offset (md.length : Int)).toNat ≤ md.length := by omega
    have hsol : lineStart md (min offset (md.length : Int)).toNat ≤ md.length :=
      le_trans (lineStart_le md _) hio
    rw [insertImageAtOffset]
    rw [jsSlice_zero_natCast, jsSliceFrom_natCast, Nat.min_eq_left hsol]
    by_cases h0 : 0 < lineStart md (min offset (md.length : Int)).toNat
    · simp [h0]
    · simp [h0]
  · decide

/-- Witness for C8: the general statement at `"ab\ncd"`, offset 4 — the
anchor is position 3, the start of the second line, and the block gets a
leading newline there. -/
theorem C8_witness :
    insertImageAtOffset ("ab\ncd".toList) 4 ("I".toList)
      = ("ab\ncd".toList).take 3 ++ ['\n'] ++ ("I".toList) ++ ['\n', '\n']
        ++ ("ab\ncd".toList).drop 3 := by
  have h := (C8_insertImageAtOffset_line_anchored.1 ("ab\ncd".toList)
    ("I".toList) 4).1
  have h1 : (min (4 : Int) ((("ab\ncd".toList)).length : Int)).toNat = 4 := by
    decide
  rw [h1] at h
  have h2 : lineStart ("ab\ncd".toList) 4 = 3 := by decide
  rw [h2] at h
  simpa using h

theorem runItems_no_done (rw : Rewrite) (items : List FeedbackItem) :
    ∀ (md m : List Char), SSEvent.done m ∉ (runItems rw md items).1 := by
  induction items with
  | nil => intro md m; simp [runItems]
  | cons item rest ih =>
    intro md m
    cases hs : skipItem item with
    | true => simpa [runItems, hs] using ih md m
    | false =>
      cases hrw : rw item (getContextAround md (item.startOffset.getD 0)
          (item.endOffset.getD 0) 200) with
      | ok chunks =>
        simp only [runItems, hs, Bool.false_eq_true, if_false, hrw]
        simp only [List.mem_cons, List.mem_append, List.mem_map]
        push_neg
        refine ⟨by simp, fun c _ => by simp, by simp, ih _ m⟩
      | fail msg sent =>
        simp only [runItems, hs, Bool.false_eq_true, if_false, hrw]
        simp only [List.mem_cons, List.mem_map]
        push_neg
        exact ⟨by simp, fun c _ => by simp⟩

theorem lastDone_foldl_no_done :
    ∀ (evs : List SSEvent), (∀ m, SSEvent.done m ∉ evs) →
      ∀ acc, List.foldl lastDoneStep acc evs = acc := by
  intro evs
  induction evs with
  | nil => intro _ acc; rfl
  | cons e rest ih =>
    intro h acc
    rw [List.foldl_cons]
    have he : lastDoneStep acc e = acc := by
      cases e with
      | done m => exact absurd (List.mem_cons_self _ _) (h m)
      | start i => rfl
      | content i t => rfl
      | complete i t => rfl
      | error m => rfl
    rw [he]
    exact ih (fun m hm => h m (List.mem_cons_of_mem _ hm)) acc

theorem lastDone_eq_none (evs : List SSEvent)
    (h : ∀ m, SSEvent.done m ∉ evs) : lastDone evs = none :=
  lastDone_foldl_no_done evs h none

/-- C2: if the rewrite collaborator's stream throws before the batch
completes (the loop's outcome is an error), the emitted stream contains no
`done` event — no candidate text is ever produced — and the markdown the
caller ends up with is byte-for-byte the pre-batch base text. -/
theorem C2_failed_batch_preserves_base (rw : Rewrite) (md : List Char)
    (items : List FeedbackItem) (msg : List Char)
    (h : (runItems rw md items).2 = Except.error msg) :
    (∀ m, SSEvent.done m ∉ route rw md items)
      ∧ clientFinalMarkdown md (route rw md items) = md := by
  have hroute : route rw md items
      = (runItems rw md items).1 ++ [SSEvent.error msg] := by
    unfold route
    rcases hr : runItems rw md items with ⟨evs, res⟩
    rw [hr] at h
    cases res with
    | ok f => exact absurd h (by simp)
    | error m =>
      simp only at h
      rw [h]
  have hnd : ∀ m, SSEvent.done m ∉ route rw md items := by
    intro m hm
    rw [hroute] at hm
    rcases List.mem_append.mp hm with h1 | h2
    · exact runItems_no_done rw items md m h1
    · simp at h2
  refine ⟨hnd, ?_⟩
  rw [clientFinalMarkdown, lastDone_eq_none _ hnd]
  rfl

/-- Witness for C2: a collaborator that throws immediately on a one-item
batch; the loop's outcome is the error and the caller keeps the base text. -/
theorem C2_witness :
    (runItems c2Rewrite ("hello world".toList) [c2Item]).2
        = Except.error ("boom".toList)
      ∧ clientFinalMarkdown ("hello world".toList)
          (route c2Rewrite ("hello world".toList) [c2Item])
        = ("hello world".toList) :=
  ⟨rfl, (C2_failed_batch_preserves_base c2Rewrite ("hello world".toList)
    [c2Item] ("boom".toList) rfl).2⟩

/-- C10 helper: the events of one successfully rewritten item contribute
exactly one `start` id. -/
theorem startedIds_content_map (i : List Char) (chunks : List (List Char)) :
    startedIds (chunks.map (SSEvent.content i)) = [] := by
  induction chunks with
  | nil => rfl
  | cons c cs ih => simp [startedIds, List.filterMap_cons, ih]

theorem startedIds_block (i txt : List Char) (chunks : List (List Char))
    (tail : List SSEvent) :
    startedIds (SSEvent.start i ::
        (chunks.map (SSEvent.content i) ++ SSEvent.complete i txt :: tail))
      = i :: startedIds tail := by
  have hc := startedIds_content_map i chunks
  simp only [startedIds, List.filterMap_cons, List.filterMap_append] at *
  rw [hc]
  rfl

theorem runItems_startedIds (rw : Rewrite) (items : List FeedbackItem) :
    ∀ (md finalMd : List Char),
      (runItems rw md items).2 = Except.ok finalMd →
      startedIds (runItems rw md items).1
        = (items.filter (fun i => !skipItem i)).map FeedbackItem.id := by
  induction items with
  | nil => intro md f _; rfl
  | cons item rest ih =>
    intro md f h
    cases hs : skipItem item with
    | true =>
      have h2 : (runItems rw md rest).2 = Except.ok f := by
        simpa [runItems, hs] using h
      simpa [runItems, hs, List.filter_cons] using ih md f h2
    | false =>
      cases hrw : rw item (getContextAround md (item.startOffset.getD 0)
          (item.endOffset.getD 0) 200) with
      | ok chunks =>
        have h2 : (runItems rw (replaceSection md (item.startOffset.getD 0)
            (item.endOffset.getD 0) chunks.flatten) rest).2 = Except.ok f := by
          simpa [runItems, hs, hrw] using h
        simp only [runItems, hs, Bool.false_eq_true, if_false, hrw]
        rw [startedIds_block]
        rw [ih _ f h2]
        simp [List.filter_cons, hs]
      | fail msg sent =>
        exact absurd h (by simp [runItems, hs, hrw])

/-- C4 counterexample: a batch queued as `[B, A]` with `B.startOffset = 10`
and `A.startOffset = 5` is dispatched `B` first, then `A` — the `start`
events come out in submission order `["2", "1"]`, not ascending by
`startOffset` (which would be `["1", "2"]`). -/
theorem C4_counterexample :
    startedIds (route c4Rewrite ("0123456789ABCDEF".toList)
        [c4ItemB, c4ItemA])
      = [("2".toList), ("1".toList)]
      ∧ c4ItemB.startOffset = some 10 ∧ c4ItemA.startOffset = some 5
      ∧ [("2".toList), ("1".toList)] ≠ [("1".toList), ("2".toList)] := by
  decide

/-- C4 (amended): the route dispatches requests in the order they appear in
the submitted batch — no sorting by `startOffset` takes place — so for any
batch whose streams all succeed, the `start` events are exactly the ids of
the non-skipped items in submission order. -/
theorem C4_dispatch_in_submission_order (rw : Rewrite) (md : List Char)
    (items : List FeedbackItem) (finalMd : List Char)
    (h : (runItems rw md items).2 = Except.ok finalMd) :
    startedIds (route rw md items)
      = (items.filter (fun i => !skipItem i)).map FeedbackItem.id := by
  have hroute : route rw md items
      = (runItems rw md items).1 ++ [SSEvent.done finalMd] := by
    unfold route
    rcases hr : runItems rw md items with ⟨evs, res⟩
    rw [hr] at h
    cases res with
    | ok f =>
      simp only [Except.ok.injEq] at h
      rw [h]
    | error m => exact absurd h (by simp)
  rw [hroute]
  have : startedIds ((runItems rw md items).1 ++ [SSEvent.done finalMd])
      = startedIds (runItems rw md items).1 := by
    simp [startedIds, List.filterMap_append]
  rw [this, runItems_startedIds rw items md finalMd h]

/-- Witness for C4: the amended statement at the concrete reversed batch. -/
theorem C4_witness :
    startedIds (route c4Rewrite ("0123456789ABCDEF".toList)
        [c4ItemB, c4ItemA])
      = ([c4ItemB, c4ItemA].filter (fun i => !skipItem i)).map
          FeedbackItem.id :=
  C4_dispatch_in_submission_order c4Rewrite ("0123456789ABCDEF".toList)
    [c4ItemB, c4ItemA] ("01234new89newEF".toList) rfl

/-- C10: an item rejected by the guard
`item.type !== 'text' || !item.startOffset || !item.endOffset` — in
particular any span-replace whose `startOffset` or `endOffset` is `0` — is
silently skipped: the run over a batch containing it is identical, events
and outcome alike, to the run over the batch with the item removed, so no
`start`/`content`/`complete` event is emitted for it, its span is left
unreplaced, and no error is reported. -/
theorem C10_skipped_item_invisible (rw : Rewrite) (md : List Char)
    (pre post : List FeedbackItem) (item : FeedbackItem)
    (h : skipItem item = true) :
    runItems rw md (pre ++ item :: post) = runItems rw md (pre ++ post)
      ∧ route rw md (pre ++ item :: post) = route rw md (pre ++ post) := by
  have hrun : ∀ md0, runItems rw md0 (pre ++ item :: post)
      = runItems rw md0 (pre ++ post) := by
    induction pre with
    | nil => intro md0; simp [runItems, h]
    | cons p pre ih =>
      intro md0
      simp only [List.cons_append]
      cases hp : skipItem p with
      | true => simp [runItems, hp, ih md0]
      | false =>
        cases hrw : rw p (getContextAround md0 (p.startOffset.getD 0)
            (p.endOffset.getD 0) 200) with
        | ok chunks =>
          simp only [runItems, hp, Bool.false_eq_true, if_false, hrw]
          rw [ih]
        | fail msg sent =>
          simp only [runItems, hp, Bool.false_eq_true, if_false, hrw]
  refine ⟨hrun md, ?_⟩
  unfold route
  rw [hrun md]

/-- Witness for C10: the one-item batch holding only a `startOffset = 0`
request runs exactly like the empty batch. -/
theorem C10_witness :
    runItems c10Rewrite ("AAAA BBBB".toList) ([] ++ c10Item :: [])
        = runItems c10Rewrite ("AAAA BBBB".toList) ([] ++ [])
      ∧ route c10Rewrite ("AAAA BBBB".toList) ([] ++ c10Item :: [])
        = route c10Rewrite ("AAAA BBBB".toList) ([] ++ []) :=
  C10_skipped_item_invisible c10Rewrite ("AAAA BBBB".toList) [] [] c10Item
    (by decide)

/-- Witness for C9: the frame property at a concrete completed-transaction
state. -/
theorem C9_witness :
    (handleDenyChanges c9State).post = c9State.post
      ∧ (handleDenyChanges c9State).post.currentVersionId
          = c9State.post.currentVersionId
      ∧ (handleDenyChanges c9State).versions = c9State.versions
      ∧ (handleDenyChanges c9State).markdown = c9State.markdown
      ∧ (handleDenyChanges c9State).pendingMarkdown = none :=
  C9_deny_changes_frame c9State ("cand".toList) (by decide)
